import Mathlib

/-!
Verification development for the pdf2video repository.

The repository ships a Next.js frontend (src/frontend) together with a
backend design document (src/unnamed/part_019).  The frontend pieces
(job status type, progress hook, job-creation form, api client) are
embedded directly from the TypeScript sources.  The backend core
(job state machine, AI orchestrator, encoder adapter, SSE progress
stream) is modelled from the specification and from the code snippets
embedded in the design document, as noted on each definition.
-/

namespace PdfToVideo

/-- Job statuses, from the `JobStatus` union in
src/frontend/src/types/job.ts (the same enum appears in the backend
design document's Job model). -/
inductive JobStatus where
  | pending
  | classifying
  | scripting
  | voiceover
  | backgrounds
  | composing
  | exporting
  | completed
  | failed
  | cancelled
deriving DecidableEq

/-- String name of a status as it appears on the wire (the TypeScript
union members / the backend enum values). -/
def JobStatus.name : JobStatus → String
  | .pending => "pending"
  | .classifying => "classifying"
  | .scripting => "scripting"
  | .voiceover => "voiceover"
  | .backgrounds => "backgrounds"
  | .composing => "composing"
  | .exporting => "exporting"
  | .completed => "completed"
  | .failed => "failed"
  | .cancelled => "cancelled"

/-- Terminal statuses: completed, failed, cancelled (spec section 4.1;
also the set tested by stream_job_progress's break condition and by
JobDetailPage's isTerminal). -/
def isTerminal : JobStatus → Bool
  | .completed => true
  | .failed => true
  | .cancelled => true
  | _ => false

/-- Modelled from the spec: the successors of each status on the
success path of section 4.1, `pending → classifying → scripting →
voiceover → backgrounds (optional) → composing → exporting →
completed`; `backgrounds` is optional, so `voiceover` may move directly
to `composing`. -/
def successNext : JobStatus → List JobStatus
  | .pending => [.classifying]
  | .classifying => [.scripting]
  | .scripting => [.voiceover]
  | .voiceover => [.backgrounds, .composing]
  | .backgrounds => [.composing]
  | .composing => [.exporting]
  | .exporting => [.completed]
  | _ => []

/-- Modelled from the spec: the legal transition graph of section 4.1.
From a non-terminal status a job may move to the next success-path
status, or to `failed` (unrecoverable error), or to `cancelled`
(cancel).  Terminal statuses have no outgoing edges. -/
def legalStep (a b : JobStatus) : Bool :=
  if isTerminal a then false
  else ((successNext a).contains b || b = .failed || b = .cancelled)

/-- Job record, from the `Job` interface in
src/frontend/src/types/job.ts restricted to the fields owned by the
job state machine (status, progress, current_step, error_message).
Progress is embedded as a rational number; the values involved are
exact decimals and the code performs no arithmetic on them. -/
structure Job where
  status : JobStatus
  progress : ℚ
  current_step : String
  error_message : Option String
deriving DecidableEq

/-- Clamp a requested progress value into [0, 1]. -/
def clamp01 (p : ℚ) : ℚ := min (max p 0) 1

/-- Modelled from the spec: the Job State Machine's transition API
(section 4.1, missing from src/ — the backend core is only described
by the design document).  A requested move to `target` is applied only
when the legal graph allows it; otherwise the attempt is rejected as a
no-op returning the job unchanged.  Progress is owned by the machine:
it is clamped to [0, 1] and never regresses. -/
def transition (j : Job) (target : JobStatus) (step : String) (p : ℚ) : Job :=
  if legalStep j.status target then
    { j with status := target, current_step := step,
             progress := max j.progress (clamp01 p) }
  else j

/-- Modelled from the spec: an intra-stage progress update (section
4.1); ignored on a terminal job, clamped and non-regressing otherwise. -/
def updateProgress (j : Job) (p : ℚ) : Job :=
  if isTerminal j.status then j
  else { j with progress := max j.progress (clamp01 p) }

/-- Events a worker may attempt against one job: a status move or an
intra-stage progress update. -/
inductive JobEvent where
  | move (target : JobStatus) (step : String) (p : ℚ)
  | upd (p : ℚ)

/-- Apply one attempted event through the state machine's API. -/
def applyEvent (j : Job) : JobEvent → Job
  | .move t s p => transition j t s p
  | .upd p => updateProgress j p

/-- Run a sequence of attempted events. -/
def runJob (j : Job) (es : List JobEvent) : Job := es.foldl applyEvent j

/-- The trace of job values observed along a run (including the
initial one). -/
def jobTrace (j : Job) : List JobEvent → List Job
  | [] => [j]
  | e :: es => j :: jobTrace (applyEvent j e) es

/-- A freshly submitted job: pending, zero progress. -/
def initJob : Job :=
  { status := .pending, progress := 0, current_step := "Queued", error_message := none }

/-- One step of an observed status sequence is allowed when the status
is unchanged (a rejected/no-op attempt or a pure progress update) or
moves along an edge of the legal graph. -/
def statusStepOk (a b : JobStatus) : Prop := a = b ∨ legalStep a b = true

/-! ### Frontend progress hook (src/frontend/src/hooks/use-job-progress.ts) -/

/-- Progress payload, from the `JobProgress` interface in
src/frontend/src/types/job.ts: exactly the fields status, step,
progress. -/
structure JobProgress where
  status : JobStatus
  step : String
  progress : ℚ
deriving DecidableEq

/-- The FALLBACK_STEPS constant of use-job-progress.ts. -/
def FALLBACK_STEPS : List JobProgress :=
  [⟨.classifying, "Classifying images", 1/5⟩,
   ⟨.scripting, "Generating script", 2/5⟩,
   ⟨.voiceover, "Generating voiceover", 3/5⟩,
   ⟨.composing, "Composing video", 4/5⟩,
   ⟨.completed, "Complete", 1⟩]

/-- State of the useJobProgress hook: the held progress value, the
sseConnected flag, the running fallback-interval index `i`, and
whether the fallback interval is currently scheduled. -/
structure HookState where
  progress : JobProgress
  sseConnected : Bool
  i : ℕ
  timerActive : Bool
deriving DecidableEq

/-- Re-evaluation of the fallback effect of useJobProgress.  React
re-runs the effect whenever its dependencies (progress.status,
sseConnected) change; every state update performed by this hook that
matters to the guard changes one of them, so we re-evaluate after each
update.  The guard `progress.status !== "pending" || sseConnected`
clears the interval; otherwise a fresh interval starts at index 0. -/
def syncEffects (s : HookState) : HookState :=
  if s.progress.status = .pending ∧ s.sseConnected = false then
    if s.timerActive then s else { s with timerActive := true, i := 0 }
  else
    { s with timerActive := false }

/-- External stimuli to the hook: a 1.5 s interval tick, or an SSE
progress event delivering a server payload. -/
inductive HookEvent where
  | tick
  | sse (p : JobProgress)

/-- One step of the hook.  A tick (when the interval is live) stores
`FALLBACK_STEPS[min i 4]` and advances `i`; an SSE event sets
sseConnected and stores the server payload.  Afterwards the effect is
re-evaluated. -/
def hookStep (s : HookState) : HookEvent → HookState
  | .tick =>
    if s.timerActive then
      let next := FALLBACK_STEPS.getD (min s.i 4) ⟨.pending, "", 0⟩
      syncEffects { s with progress := next, i := s.i + 1,
                           timerActive := decide (s.i + 1 < FALLBACK_STEPS.length) }
    else s
  | .sse p => syncEffects { s with progress := p, sseConnected := true }

/-- The hook's state after mount: initial useState value
{pending, Queued, 0}, then the effects run once. -/
def hookInit : HookState :=
  syncEffects { progress := ⟨.pending, "Queued", 0⟩, sseConnected := false,
                i := 0, timerActive := false }

/-- Run the hook over a list of stimuli. -/
def hookRun (es : List HookEvent) : HookState := es.foldl hookStep hookInit

/-- The sequence of progress values the hook exposes from state `s`
onwards (including the value held at `s`). -/
def hookTraceFrom (s : HookState) : List HookEvent → List JobProgress
  | [] => [s.progress]
  | e :: es => s.progress :: hookTraceFrom (hookStep s e) es

/-- The sequence of progress values the hook exposes along a run
(including the initial value). -/
def hookTrace (es : List HookEvent) : List JobProgress := hookTraceFrom hookInit es

/-- The hook's state after the first fallback tick: the first fallback
step is held, the index has advanced, and the interval is cleared
because the effect re-ran with a non-pending status. -/
def tickedHook : HookState :=
  { progress := ⟨.classifying, "Classifying images", 1/5⟩,
    sseConnected := false, i := 1, timerActive := false }

/-! ### SSE progress stream (stream_job_progress, design document part_019) -/

/-- Snapshot of a job as sent by stream_job_progress immediately after
subscribing: the job's status, current_step and progress. -/
def snapshot (j : Job) : JobProgress := ⟨j.status, j.current_step, j.progress⟩

/-- The listen loop of stream_job_progress forwards published messages
in order and stops after forwarding the first message whose status is
terminal. -/
def takeUntilTerminal : List JobProgress → List JobProgress
  | [] => []
  | e :: es => if isTerminal e.status then [e] else e :: takeUntilTerminal es

/-- Events a subscriber receives from stream_job_progress: first the
current snapshot of the job, then the messages published on the job's
channel (up to and including the first terminal one). -/
def streamEvents (j : Job) (published : List JobProgress) : List JobProgress :=
  snapshot j :: takeUntilTerminal published

/-! ### JSON values (model of the JavaScript runtime used by the code) -/

/-- JSON values, as produced by the JavaScript runtime's JSON.parse and
json.dumps used by api-client.ts and stream_job_progress. -/
inductive Json where
  | null
  | bool (b : Bool)
  | num (q : ℚ)
  | str (s : String)
  | arr (xs : List Json)
  | obj (fields : List (String × Json))

/-- JSON whitespace characters. -/
def jsonWs (c : Char) : Bool := c = ' ' || c = '\t' || c = '\n' || c = '\r'

/-- Numeric value of a decimal digit character. -/
def digitVal (c : Char) : ℕ := c.toNat - '0'.toNat

/-- Numeric value of a list of decimal digit characters. -/
def digitsToNat (ds : List Char) : ℕ := ds.foldl (fun acc c => acc * 10 + digitVal c) 0

/-- Hex digit value, for \u escapes. -/
def hexVal (c : Char) : Option ℕ :=
  if c.isDigit then some (digitVal c)
  else if 'a' ≤ c ∧ c ≤ 'f' then some (c.toNat - 'a'.toNat + 10)
  else if 'A' ≤ c ∧ c ≤ 'F' then some (c.toNat - 'A'.toNat + 10)
  else none

/-- Single-character JSON string escapes. -/
def escChar (c : Char) : Option Char :=
  if c = '"' then some '"'
  else if c = '\\' then some '\\'
  else if c = '/' then some '/'
  else if c = 'b' then some (Char.ofNat 8)
  else if c = 'f' then some (Char.ofNat 12)
  else if c = 'n' then some '\n'
  else if c = 'r' then some '\r'
  else if c = 't' then some '\t'
  else none

/-- Body of a JSON string after the opening quote; returns the decoded
characters and the remainder after the closing quote. -/
def parseStringBody : ℕ → List Char → Option (List Char × List Char)
  | 0, _ => none
  | _, [] => none
  | fuel + 1, c :: rest =>
    if c = '"' then some ([], rest)
    else if c = '\\' then
      match rest with
      | [] => none
      | e :: rest2 =>
        if e = 'u' then
          match rest2 with
          | a :: b :: c3 :: d :: rest3 =>
            match hexVal a, hexVal b, hexVal c3, hexVal d with
            | some ha, some hb, some hc, some hd =>
              (parseStringBody fuel rest3).map
                (fun p => (Char.ofNat (((ha * 16 + hb) * 16 + hc) * 16 + hd) :: p.1, p.2))
            | _, _, _, _ => none
          | _ => none
        else
          match escChar e with
          | some ec => (parseStringBody fuel rest2).map (fun p => (ec :: p.1, p.2))
          | none => none
    else (parseStringBody fuel rest).map (fun p => (c :: p.1, p.2))

/-- Exponent suffix of a JSON number applied to the mantissa `v`. -/
def parseExpPart (v : ℚ) (cs : List Char) : Option (ℚ × List Char) :=
  let p : Bool × List Char :=
    match cs with
    | '-' :: r => (true, r)
    | '+' :: r => (false, r)
    | _ => (false, cs)
  let eds := p.2.takeWhile Char.isDigit
  if eds.isEmpty then none
  else
    let scale : ℚ := (10 : ℚ) ^ digitsToNat eds
    some (if p.1 then v / scale else v * scale, p.2.drop eds.length)

/-- JSON number starting at `cs`. -/
def parseNum (cs : List Char) : Option (ℚ × List Char) :=
  let p : Bool × List Char :=
    match cs with
    | '-' :: r => (true, r)
    | _ => (false, cs)
  let ints := p.2.takeWhile Char.isDigit
  let cs2 := p.2.drop ints.length
  if ints.isEmpty then none
  else
    let base : ℚ := (digitsToNat ints : ℚ)
    let step1 : Option (ℚ × List Char) :=
      match cs2 with
      | '.' :: r =>
        let fds := r.takeWhile Char.isDigit
        if fds.isEmpty then none
        else some (base + (digitsToNat fds : ℚ) / (10 : ℚ) ^ fds.length, r.drop fds.length)
      | _ => some (base, cs2)
    match step1 with
    | none => none
    | some (v, cs3) =>
      let step2 : Option (ℚ × List Char) :=
        match cs3 with
        | 'e' :: r => parseExpPart v r
        | 'E' :: r => parseExpPart v r
        | _ => some (v, cs3)
      match step2 with
      | none => none
      | some (v2, cs4) => some (if p.1 then -v2 else v2, cs4)

mutual

/-- One JSON value starting at `cs` (fuel bounds nesting/iteration and
always suffices when it exceeds the input length). -/
def parseVal : ℕ → List Char → Option (Json × List Char)
  | 0, _ => none
  | fuel + 1, cs =>
    match cs.dropWhile jsonWs with
    | 'n' :: 'u' :: 'l' :: 'l' :: rest => some (.null, rest)
    | 't' :: 'r' :: 'u' :: 'e' :: rest => some (.bool true, rest)
    | 'f' :: 'a' :: 'l' :: 's' :: 'e' :: rest => some (.bool false, rest)
    | '"' :: rest =>
      match parseStringBody (rest.length + 1) rest with
      | some p => some (.str (String.mk p.1), p.2)
      | none => none
    | '[' :: rest =>
      match rest.dropWhile jsonWs with
      | ']' :: r2 => some (.arr [], r2)
      | _ => parseArrItems fuel rest []
    | '\x7b' :: rest =>
      match rest.dropWhile jsonWs with
      | '\x7d' :: r2 => some (.obj [], r2)
      | _ => parseObjItems fuel rest []
    | c :: rest =>
      if c.isDigit ∨ c = '-' then (parseNum (c :: rest)).map (fun p => (Json.num p.1, p.2))
      else none
    | [] => none

/-- Comma-separated items of a JSON array, accumulating into `acc`. -/
def parseArrItems : ℕ → List Char → List Json → Option (Json × List Char)
  | 0, _, _ => none
  | fuel + 1, cs, acc =>
    match parseVal fuel cs with
    | none => none
    | some (v, r) =>
      match r.dropWhile jsonWs with
      | ',' :: r2 => parseArrItems fuel r2 (acc ++ [v])
      | ']' :: r2 => some (.arr (acc ++ [v]), r2)
      | _ => none

/-- Comma-separated key/value members of a JSON object. -/
def parseObjItems : ℕ → List Char → List (String × Json) → Option (Json × List Char)
  | 0, _, _ => none
  | fuel + 1, cs, acc =>
    match cs.dropWhile jsonWs with
    | '"' :: rest =>
      match parseStringBody (rest.length + 1) rest with
      | none => none
      | some (k, r) =>
        match r.dropWhile jsonWs with
        | ':' :: r2 =>
          match parseVal fuel r2 with
          | none => none
          | some (v, r3) =>
            match r3.dropWhile jsonWs with
            | ',' :: r4 => parseObjItems fuel r4 (acc ++ [(String.mk k, v)])
            | '\x7d' :: r4 => some (.obj (acc ++ [(String.mk k, v)]), r4)
            | _ => none
        | _ => none
    | _ => none

end

/-- Model of the JavaScript runtime's JSON.parse: parses one value and
requires the rest of the string to be whitespace. -/
def parseJson (s : String) : Option Json :=
  match parseVal (s.length + 1) s.data with
  | some (v, rest) => if (rest.dropWhile jsonWs).isEmpty then some v else none
  | none => none

/-- JavaScript property access `b.k` combined with the `??` operator:
yields the field value when `b` is an object having field `k` with a
non-null value, and nothing otherwise. -/
def jsLookup : Json → String → Option Json
  | .obj fs, k =>
    match fs.lookup k with
    | some .null => none
    | some v => some v
    | none => none
  | _, _ => none

/-! ### apiFetch response handling (src/frontend/src/lib/api-client.ts) -/

/-- HTTP response as seen by apiFetch after fetch resolves: numeric
status, statusText, and the body text. -/
structure HttpResponse where
  status : ℕ
  statusText : String
  body : String

/-- The Fetch API's response.ok: status in the 2xx range. -/
def respOk (r : HttpResponse) : Bool := 200 ≤ r.status && r.status ≤ 299

/-- ApiError value thrown by apiFetch (code and message are whatever
JavaScript values the body yielded). -/
structure ApiErrorModel where
  code : Json
  message : Json

/-- Outcome of apiFetch's response handling: a resolved JSON value, a
thrown ApiError, or a thrown JSON.parse SyntaxError on a 2xx body. -/
inductive FetchOutcome where
  | ok (v : Json)
  | apiErr (e : ApiErrorModel)
  | parseFail

/-- Whether the outcome is a resolved value. -/
def FetchOutcome.isResolved : FetchOutcome → Bool
  | .ok _ => true
  | _ => false

/-- Error built from a non-ok response body, from api-client.ts: start
from the default, parse the body, take code ?? detail ?? "UNKNOWN" and
message ?? detail ?? statusText; a parse failure keeps code "UNKNOWN"
and sets the message to statusText. -/
def errorFromBody (r : HttpResponse) : ApiErrorModel :=
  match parseJson r.body with
  | some b =>
    { code := ((jsLookup b "code").getD ((jsLookup b "detail").getD (.str "UNKNOWN"))),
      message := ((jsLookup b "message").getD ((jsLookup b "detail").getD (.str r.statusText))) }
  | none => { code := .str "UNKNOWN", message := .str r.statusText }

/-- Response handling of apiFetch, from src/frontend/src/lib/api-client.ts
lines 29-53: a 401 in a browser context clears the stored token and
throws; any other non-ok response throws an ApiError built from the
body; an ok response with empty body resolves with the empty object;
otherwise the body is parsed as JSON (a parse failure rejects).
Returns the outcome together with the stored-token state. -/
def handleResponse (browser : Bool) (r : HttpResponse) (token : Option String) :
    FetchOutcome × Option String :=
  if r.status = 401 ∧ browser = true then
    (.apiErr { code := .str "UNAUTHORIZED", message := .str "Session expired" }, none)
  else if respOk r = false then
    (.apiErr (errorFromBody r), token)
  else if r.body = "" then
    (.ok (.obj []), token)
  else
    match parseJson r.body with
    | some v => (.ok v, token)
    | none => (.parseFail, token)

/-! ### Progress event payload shape -/

/-- The JSON payload constructed by stream_job_progress's json.dumps
call: exactly the keys status, step, progress. -/
def progressPayload (e : JobProgress) : Json :=
  .obj [("status", .str e.status.name), ("step", .str e.step), ("progress", .num e.progress)]

/-- Keys of a JSON object value. -/
def jsonKeys : Json → List String
  | .obj fs => fs.map Prod.fst
  | _ => []

/-- Event shape asserted by the spec's ProgressEvent data model,
following the spec's words: a job_id, status, step, progress record.
Stated separately from the source-derived payload so the two can be
compared. -/
def specProgressEventKeys : List String := ["job_id", "status", "step", "progress"]

/-! ### Job creation form (src/frontend/src/components/jobs/job-create-form.tsx) -/

/-- Voice list from src/frontend/src/lib/constants (part_018). -/
def voices : List String := ["onyx", "alloy", "echo", "fable", "nova", "shimmer"]

/-- Resolution list from src/frontend/src/lib/constants (part_018). -/
def resolutions : List String := ["1920x1080", "2560x1440", "3840x2160"]

/-- Fps option list from src/frontend/src/lib/constants (part_018). -/
def fpsOptions : List ℕ := [24, 30, 60]

/-- Output modes from the job-create-form union type
"video" | "presentation" | "both". -/
inductive OutputMode where
  | video
  | presentation
  | both
deriving DecidableEq

/-- Preset settings, from src/frontend/src/types/preset.ts. -/
structure PresetSettings where
  voice : String
  resolution : String
  fps : ℕ
  generate_backgrounds : Bool
deriving DecidableEq

/-- The configure-step state of JobCreateForm. -/
structure FormState where
  voice : String
  resolution : String
  fps : ℕ
  generateBackgrounds : Bool
  outputMode : OutputMode
deriving DecidableEq

/-- Initial form state: voices[0], resolutions[0], fpsOptions[1] (30),
backgrounds on, output mode video. -/
def initialForm : FormState :=
  { voice := voices.getD 0 "", resolution := resolutions.getD 0 "",
    fps := fpsOptions.getD 1 0, generateBackgrounds := true, outputMode := .video }

/-- applyPreset from job-create-form.tsx: voice/resolution/fps are
applied only when truthy (nonempty string / nonzero number) and
contained in the corresponding option list; generate_backgrounds is
applied whenever it is a boolean, which in this typed model is always. -/
def applyPreset (f : FormState) (s : PresetSettings) : FormState :=
  { voice := if s.voice ≠ "" ∧ s.voice ∈ voices then s.voice else f.voice,
    resolution := if s.resolution ≠ "" ∧ s.resolution ∈ resolutions then
      s.resolution else f.resolution,
    fps := if s.fps ≠ 0 ∧ s.fps ∈ fpsOptions then s.fps else f.fps,
    generateBackgrounds := s.generate_backgrounds,
    outputMode := f.outputMode }

/-- User interactions with the configure step: the three selects (whose
options are exactly the constants lists, modelled by index), the
backgrounds checkbox, the output-mode buttons, and loading a preset. -/
inductive FormEvent where
  | selectVoice (i : ℕ)
  | selectResolution (i : ℕ)
  | selectFps (i : ℕ)
  | toggleBackgrounds (b : Bool)
  | chooseOutputMode (m : OutputMode)
  | loadPreset (s : PresetSettings)

/-- One interaction applied to the form state. -/
def formStep (f : FormState) : FormEvent → FormState
  | .selectVoice i =>
    match voices.get? i with
    | some v => { f with voice := v }
    | none => f
  | .selectResolution i =>
    match resolutions.get? i with
    | some r => { f with resolution := r }
    | none => f
  | .selectFps i =>
    match fpsOptions.get? i with
    | some n => { f with fps := n }
    | none => f
  | .toggleBackgrounds b => { f with generateBackgrounds := b }
  | .chooseOutputMode m => { f with outputMode := m }
  | .loadPreset s => applyPreset f s

/-- Run a sequence of interactions from the initial form state. -/
def runForm (es : List FormEvent) : FormState := es.foldl formStep initialForm

/-- The settings object built by handleSubmit for the job-creation
request body. -/
structure JobSettingsPayload where
  voice : String
  resolution : String
  fps : ℕ
  generate_backgrounds : Bool
  output_mode : OutputMode
deriving DecidableEq

/-- handleSubmit's settings: taken directly from the form state. -/
def submittedSettings (f : FormState) : JobSettingsPayload :=
  { voice := f.voice, resolution := f.resolution, fps := f.fps,
    generate_backgrounds := f.generateBackgrounds, output_mode := f.outputMode }

/-! ### AI orchestrator (spec section 4.2; backend core missing from src/) -/

/-- Classification tags from the spec's SceneInput data model. -/
inductive Tag where
  | chart
  | diagram
  | table
  | photo
  | logo
  | decorative
  | noTag
deriving DecidableEq

/-- Modelled from the spec: the bounded-retry wrapper of section 4.2
(missing from src/): each external call is attempted up to 3 times;
the wrapped call returns the first success among those attempts. -/
def retryCall {α : Type} (attempts : List (Option α)) : Option α :=
  (attempts.take 3).findSome? id

/-- Outcomes of the external capability calls for one scene: each
field lists the per-attempt outcome (none = failure of that attempt). -/
structure SceneCalls where
  classifyAttempts : List (Option Tag)
  scriptAttempts : List (Option String)
  voiceAttempts : List (Option ℚ)
  bgAttempts : List (Option String)

/-- Visual finally used by a scene: a generated background, or the
solid-color / cached fallback. -/
inductive SceneVisual where
  | generated (ref : String)
  | fallback
deriving DecidableEq

/-- A fully planned scene as produced by the orchestrator. -/
structure PlannedScene where
  tag : Tag
  script : String
  audioDuration : ℚ
  visual : SceneVisual
deriving DecidableEq

/-- Modelled from the spec: planning one scene (section 4.2, missing
from src/).  Classification, script and voice failures after retries
fail the scene (and hence the job); a background-generation failure
after retries degrades the scene to the fallback visual instead. -/
def planScene (generateBackgrounds : Bool) (c : SceneCalls) : Option PlannedScene :=
  match retryCall c.classifyAttempts, retryCall c.scriptAttempts, retryCall c.voiceAttempts with
  | some t, some sc, some d =>
    some { tag := t, script := sc, audioDuration := d,
           visual :=
             if generateBackgrounds then
               match retryCall c.bgAttempts with
               | some ref => .generated ref
               | none => .fallback
             else .fallback }
  | _, _, _ => none

/-- Plan every scene; any scene failure fails the whole plan. -/
def planScenes (gb : Bool) : List SceneCalls → Option (List PlannedScene)
  | [] => some []
  | c :: cs =>
    match planScene gb c, planScenes gb cs with
    | some p, some ps => some (p :: ps)
    | _, _ => none

/-- Final outcome of a job run through the orchestrator. -/
inductive JobOutcome where
  | completedJob (scenes : List PlannedScene)
  | failedJob
deriving DecidableEq

/-- Modelled from the spec: the job pipeline outcome — the job
completes with the planned scenes, or fails when some scene's
classification/script/voice step failed after retries. -/
def runPipeline (gb : Bool) (scenes : List SceneCalls) : JobOutcome :=
  match planScenes gb scenes with
  | some ps => .completedJob ps
  | none => .failedJob

/-- Status a pipeline outcome ends in. -/
def outcomeStatus : JobOutcome → JobStatus
  | .completedJob _ => .completed
  | .failedJob => .failed

/-! ### Encoder adapter (spec section 4.6; backend core missing from src/) -/

/-- Encoder profile recorded in the output descriptor. -/
inductive EncProfile where
  | hardware
  | software
deriving DecidableEq

/-- Environment seen by the encoder adapter: whether hardware support
is indicated, and whether the GPU / CPU encoder processes succeed. -/
structure EncoderEnv where
  gpuSupported : Bool
  gpuRunOk : Bool
  cpuRunOk : Bool
deriving DecidableEq

/-- Output descriptor restricted to the encoder profile used. -/
structure OutputDescriptor where
  profile : EncProfile
deriving DecidableEq

/-- Modelled from the spec: the encoder adapter (section 4.6, missing
from src/): attempt GPU-accelerated encoding first when hardware
support is indicated; on encoder-process failure fall back exactly
once to the CPU software encoder; raise a fatal error only if that
fallback also fails; without GPU support use the CPU encoder directly.
Returns the descriptor (none = fatal error) together with the ordered
list of encoder attempts actually made. -/
def encode (env : EncoderEnv) : Option OutputDescriptor × List EncProfile :=
  if env.gpuSupported then
    if env.gpuRunOk then (some ⟨.hardware⟩, [.hardware])
    else if env.cpuRunOk then (some ⟨.software⟩, [.hardware, .software])
    else (none, [.hardware, .software])
  else
    if env.cpuRunOk then (some ⟨.software⟩, [.software])
    else (none, [.software])

/-! ## Helper lemmas -/

/-- A transition attempt either leaves the status unchanged or moves
along an edge of the legal graph. -/
theorem transition_status_ok (j : Job) (t : JobStatus) (s : String) (p : ℚ) :
    statusStepOk j.status (transition j t s p).status := by
  unfold transition
  split
  · next h => exact Or.inr h
  · exact Or.inl rfl

/-- A progress update never changes the status. -/
theorem updateProgress_status (j : Job) (p : ℚ) :
    (updateProgress j p).status = j.status := by
  unfold updateProgress
  split
  · rfl
  · rfl

/-- Any single attempted event either leaves the status unchanged or
moves along an edge of the legal graph. -/
theorem applyEvent_status_ok (j : Job) (e : JobEvent) :
    statusStepOk j.status (applyEvent j e).status := by
  cases e with
  | move t s p => exact transition_status_ok j t s p
  | upd p => exact Or.inl (updateProgress_status j p).symm

/-- Head of a mapped job trace. -/
theorem jobTrace_map_head {α : Type} (f : Job → α) (j : Job) (es : List JobEvent) :
    ((jobTrace j es).map f).head? = some (f j) := by
  cases es <;> rfl

/-- Consecutive values of a mapped job trace are related whenever each
attempted event relates a job to its successor. -/
theorem jobTrace_map_chain {α : Type} (f : Job → α) (r : α → α → Prop)
    (hr : ∀ j e, r (f j) (f (applyEvent j e))) (es : List JobEvent) (j : Job) :
    List.Chain' r ((jobTrace j es).map f) := by
  induction es generalizing j with
  | nil => simp [jobTrace]
  | cons e es ih =>
    rw [jobTrace, List.map_cons, List.chain'_cons']
    refine ⟨fun y hy => ?_, ih (applyEvent j e)⟩
    rw [jobTrace_map_head, Option.mem_def, Option.some_inj] at hy
    exact hy ▸ hr j e

/-- A terminal job rejects any transition attempt as a no-op. -/
theorem transition_terminal_eq (j : Job) (t : JobStatus) (s : String) (p : ℚ)
    (h : isTerminal j.status = true) : transition j t s p = j := by
  have hl : legalStep j.status t = false := by
    unfold legalStep
    rw [h]
    simp
  unfold transition
  rw [hl]
  simp

/-- A terminal job ignores progress updates. -/
theorem updateProgress_terminal_eq (j : Job) (p : ℚ) (h : isTerminal j.status = true) :
    updateProgress j p = j := by
  unfold updateProgress
  rw [h]
  simp

/-- A terminal job absorbs every attempted event unchanged. -/
theorem applyEvent_terminal_eq (j : Job) (e : JobEvent) (h : isTerminal j.status = true) :
    applyEvent j e = j := by
  cases e with
  | move t s p => exact transition_terminal_eq j t s p h
  | upd p => exact updateProgress_terminal_eq j p h

/-- A terminal job absorbs every sequence of attempted events. -/
theorem runJob_terminal_eq (j : Job) (es : List JobEvent) (h : isTerminal j.status = true) :
    runJob j es = j := by
  induction es with
  | nil => rfl
  | cons e es ih =>
    show List.foldl applyEvent (applyEvent j e) es = j
    rw [applyEvent_terminal_eq j e h]
    exact ih

/-- The only edge of the legal graph into `scripting` starts at
`classifying`. -/
theorem legal_into_scripting (a : JobStatus) (h : legalStep a .scripting = true) :
    a = .classifying := by
  cases a <;> revert h <;> decide

/-- A job observed in `scripting` after one attempted event was in
`classifying` or already in `scripting` before it. -/
theorem applyEvent_into_scripting (j : Job) (e : JobEvent)
    (h : (applyEvent j e).status = .scripting) :
    j.status = .classifying ∨ j.status = .scripting := by
  rcases applyEvent_status_ok j e with heq | hleg
  · exact Or.inr (heq.trans h)
  · exact Or.inl (legal_into_scripting _ (h ▸ hleg))

/-- Progress never decreases across a transition attempt. -/
theorem le_transition_progress (j : Job) (t : JobStatus) (s : String) (p : ℚ) :
    j.progress ≤ (transition j t s p).progress := by
  unfold transition
  split
  · exact le_max_left j.progress (clamp01 p)
  · exact le_refl j.progress

/-- Progress never decreases across a progress update. -/
theorem le_updateProgress_progress (j : Job) (p : ℚ) :
    j.progress ≤ (updateProgress j p).progress := by
  unfold updateProgress
  split
  · exact le_refl j.progress
  · exact le_max_left j.progress (clamp01 p)

/-- Progress never decreases across one attempted event. -/
theorem le_applyEvent_progress (j : Job) (e : JobEvent) :
    j.progress ≤ (applyEvent j e).progress := by
  cases e with
  | move t s p => exact le_transition_progress j t s p
  | upd p => exact le_updateProgress_progress j p

/-- Clamped values are nonnegative. -/
theorem clamp01_nonneg (p : ℚ) : 0 ≤ clamp01 p :=
  le_min (le_max_right p 0) zero_le_one

/-- Clamped values are at most one. -/
theorem clamp01_le_one (p : ℚ) : clamp01 p ≤ 1 := min_le_right _ _

/-- A transition attempt keeps progress inside [0, 1]. -/
theorem transition_progress_bounds (j : Job) (t : JobStatus) (s : String) (p : ℚ)
    (h0 : 0 ≤ j.progress) (h1 : j.progress ≤ 1) :
    0 ≤ (transition j t s p).progress ∧ (transition j t s p).progress ≤ 1 := by
  unfold transition
  split
  · exact ⟨le_max_of_le_left h0, max_le h1 (clamp01_le_one p)⟩
  · exact ⟨h0, h1⟩

/-- A progress update keeps progress inside [0, 1]. -/
theorem updateProgress_progress_bounds (j : Job) (p : ℚ)
    (h0 : 0 ≤ j.progress) (h1 : j.progress ≤ 1) :
    0 ≤ (updateProgress j p).progress ∧ (updateProgress j p).progress ≤ 1 := by
  unfold updateProgress
  split
  · exact ⟨h0, h1⟩
  · exact ⟨le_max_of_le_left h0, max_le h1 (clamp01_le_one p)⟩

/-- One attempted event keeps progress inside [0, 1]. -/
theorem applyEvent_progress_bounds (j : Job) (e : JobEvent)
    (h0 : 0 ≤ j.progress) (h1 : j.progress ≤ 1) :
    0 ≤ (applyEvent j e).progress ∧ (applyEvent j e).progress ≤ 1 := by
  cases e with
  | move t s p => exact transition_progress_bounds j t s p h0 h1
  | upd p => exact updateProgress_progress_bounds j p h0 h1

/-- Every progress value along a run stays inside [0, 1]. -/
theorem jobTrace_progress_bounds (es : List JobEvent) (j : Job)
    (h0 : 0 ≤ j.progress) (h1 : j.progress ≤ 1) :
    ∀ q ∈ (jobTrace j es).map Job.progress, 0 ≤ q ∧ q ≤ 1 := by
  induction es generalizing j with
  | nil =>
    intro q hq
    simp [jobTrace] at hq
    exact hq ▸ ⟨h0, h1⟩
  | cons e es ih =>
    intro q hq
    rw [jobTrace, List.map_cons, List.mem_cons] at hq
    rcases hq with hq | hq
    · exact hq ▸ ⟨h0, h1⟩
    · rcases applyEvent_progress_bounds j e h0 h1 with ⟨b0, b1⟩
      exact ih (applyEvent j e) b0 b1 q hq

/-- Chains of a reflexive-at-`a` relation over constant lists. -/
theorem chain'_replicate_of_refl {α : Type} (r : α → α → Prop) (a : α) (h : r a a) :
    ∀ m, List.Chain' r (List.replicate m a) := by
  intro m
  induction m with
  | zero => simp
  | succ m ih =>
    rw [List.replicate_succ, List.chain'_cons']
    refine ⟨fun y hy => ?_, ih⟩
    cases m with
    | zero => simp at hy
    | succ m =>
      rw [List.replicate_succ, List.head?_cons, Option.mem_def, Option.some_inj] at hy
      exact hy ▸ h

/-- The first tick moves the mounted hook to the ticked state. -/
theorem hookStep_init_tick : hookStep hookInit .tick = tickedHook := rfl

/-- Further ticks leave the ticked state unchanged (the interval was
cleared by the effect re-run). -/
theorem hookStep_ticked_tick : hookStep tickedHook .tick = tickedHook := rfl

/-- Folding any number of ticks over the ticked state is the identity. -/
theorem foldl_ticked_ticks (n : ℕ) :
    List.foldl hookStep tickedHook (List.replicate n .tick) = tickedHook := by
  induction n with
  | zero => rfl
  | succ n ih => rw [List.replicate_succ, List.foldl_cons, hookStep_ticked_tick]; exact ih

/-- With only timer ticks and no SSE event, the hook is in the ticked
state from the first tick on. -/
theorem hookRun_ticks (n : ℕ) :
    hookRun (List.replicate (n + 1) .tick) = tickedHook := by
  rw [hookRun, List.replicate_succ, List.foldl_cons, hookStep_init_tick]
  exact foldl_ticked_ticks n

/-- The exposed trace from the ticked state under ticks is constant. -/
theorem hookTraceFrom_ticked (m : ℕ) :
    hookTraceFrom tickedHook (List.replicate m .tick)
      = List.replicate (m + 1) tickedHook.progress := by
  induction m with
  | zero => rfl
  | succ m ih =>
    rw [List.replicate_succ, hookTraceFrom, hookStep_ticked_tick, ih,
      ← List.replicate_succ]

/-- Exposed progress values for one tick followed by further ticks. -/
theorem hookTrace_ticks (n : ℕ) :
    hookTrace (List.replicate (n + 1) .tick)
      = hookInit.progress :: List.replicate (n + 1) tickedHook.progress := by
  rw [hookTrace, List.replicate_succ, hookTraceFrom, hookStep_init_tick,
    hookTraceFrom_ticked]

/-- The statuses the hook exposes under ticks alone form a chain of the
legal graph. -/
theorem hookTicks_status_chain (n : ℕ) :
    List.Chain' statusStepOk
      ((hookTrace (List.replicate n .tick)).map JobProgress.status) := by
  cases n with
  | zero => simp [hookTrace, hookTraceFrom]
  | succ n =>
    rw [hookTrace_ticks, List.map_cons, List.map_replicate, List.chain'_cons']
    refine ⟨fun y hy => ?_,
      chain'_replicate_of_refl statusStepOk tickedHook.progress.status (Or.inl rfl) (n + 1)⟩
    rw [List.replicate_succ, List.head?_cons, Option.mem_def, Option.some_inj] at hy
    exact hy ▸ Or.inr (by decide)

/-- The progress values the hook exposes under ticks alone are
non-decreasing. -/
theorem hookTicks_progress_chain (n : ℕ) :
    List.Chain' (fun p q : ℚ => p ≤ q)
      ((hookTrace (List.replicate n .tick)).map JobProgress.progress) := by
  cases n with
  | zero => simp [hookTrace, hookTraceFrom]
  | succ n =>
    rw [hookTrace_ticks, List.map_cons, List.map_replicate, List.chain'_cons']
    refine ⟨fun y hy => ?_,
      chain'_replicate_of_refl (fun p q : ℚ => p ≤ q) tickedHook.progress.progress
        (le_refl tickedHook.progress.progress) (n + 1)⟩
    rw [List.replicate_succ, List.head?_cons, Option.mem_def, Option.some_inj] at hy
    refine hy ▸ ?_
    show (0 : ℚ) ≤ 1/5
    norm_num

/-! ## Claim theorems -/

/-- C1 (corrected): the job state machine only moves along the legal
transition graph: along any run, consecutive statuses are equal or
joined by a legal edge; a status of `scripting` is entered only from
`classifying`; a terminal job absorbs every further event; and the
status sequence the hook exposes under fallback ticks alone also
respects the graph.  (The claim's stronger reading — that every
sequence the hook exposes respects the graph — fails, see the
counterexample.) -/
theorem c1_status_follows_legal_graph :
    (∀ (j : Job) (es : List JobEvent),
        List.Chain' statusStepOk ((jobTrace j es).map Job.status))
  ∧ (∀ (j : Job) (e : JobEvent), (applyEvent j e).status = .scripting →
        j.status = .classifying ∨ j.status = .scripting)
  ∧ (∀ (j : Job) (es : List JobEvent), isTerminal j.status = true → runJob j es = j)
  ∧ (∀ n : ℕ, List.Chain' statusStepOk
        ((hookTrace (List.replicate n .tick)).map JobProgress.status)) :=
  ⟨fun j es => jobTrace_map_chain Job.status statusStepOk applyEvent_status_ok es j,
   applyEvent_into_scripting,
   runJob_terminal_eq,
   hookTicks_status_chain⟩

/-- C1 witness: a job in `classifying` moved to `scripting` by one
event was indeed in `classifying` before. -/
theorem c1_status_follows_legal_graph_witness :
    JobStatus.classifying = .classifying ∨ JobStatus.classifying = .scripting :=
  c1_status_follows_legal_graph.2.1 ⟨.classifying, 0, "Classifying images", none⟩
    (.move .scripting "Generating script" (3/10)) rfl

/-- C1 counterexample: after a fabricated fallback tick, the server's
immediate snapshot of a still-pending job makes the hook expose the
status sequence pending, classifying, pending, whose last step
(classifying to pending) is not an edge of the legal graph — so not
every observed status sequence produced by the frontend progress hook
respects the graph. -/
theorem c1_observed_sequence_counterexample :
    (hookTrace [.tick, .sse (snapshot initJob)]).map JobProgress.status
      = [.pending, .classifying, .pending]
  ∧ ¬ statusStepOk .classifying .pending :=
  ⟨rfl, by unfold statusStepOk; decide⟩

/-- C2 (confirmed): completed, failed and cancelled are terminal — a
job in a terminal state absorbs any attempted event, and any sequence
of attempted events, as a no-op returning the job record unchanged. -/
theorem c2_terminal_states_no_op :
    (∀ (j : Job) (e : JobEvent), isTerminal j.status = true → applyEvent j e = j)
  ∧ (∀ (j : Job) (es : List JobEvent), isTerminal j.status = true → runJob j es = j) :=
  ⟨applyEvent_terminal_eq, runJob_terminal_eq⟩

/-- C2 witness: a completed job is unchanged by a transition attempt. -/
theorem c2_terminal_states_no_op_witness :
    applyEvent ⟨.completed, 1, "Complete", none⟩ (.move .pending "Queued" 0)
      = ⟨.completed, 1, "Complete", none⟩ :=
  c2_terminal_states_no_op.1 ⟨.completed, 1, "Complete", none⟩
    (.move .pending "Queued" 0) rfl

/-- C3 (corrected): for the job state machine, progress is
monotonically non-decreasing along any run and stays inside [0, 1];
the hook's exposed progress sequence under fallback ticks alone is
likewise non-decreasing.  (The claim's stronger reading — that every
progress sequence the hook exposes is non-decreasing while the job is
active — fails, see the counterexample.) -/
theorem c3_progress_bounds_monotone (j : Job) (es : List JobEvent)
    (h0 : 0 ≤ j.progress) (h1 : j.progress ≤ 1) :
    List.Chain' (fun p q : ℚ => p ≤ q) ((jobTrace j es).map Job.progress)
  ∧ (∀ q ∈ (jobTrace j es).map Job.progress, 0 ≤ q ∧ q ≤ 1)
  ∧ (∀ n : ℕ, List.Chain' (fun p q : ℚ => p ≤ q)
        ((hookTrace (List.replicate n .tick)).map JobProgress.progress)) :=
  ⟨jobTrace_map_chain Job.progress _ le_applyEvent_progress es j,
   jobTrace_progress_bounds es j h0 h1,
   hookTicks_progress_chain⟩

/-- C3 witness: a run of the machine from a fresh job under one
progress update exposes a non-decreasing progress sequence. -/
theorem c3_progress_bounds_monotone_witness :
    List.Chain' (fun p q : ℚ => p ≤ q)
      ((jobTrace initJob [.upd (1/2)]).map Job.progress) :=
  (c3_progress_bounds_monotone initJob [.upd (1/2)]
    (by norm_num [initJob]) (by norm_num [initJob])).1

/-- C3 counterexample: the hook first exposes the fabricated fallback
progress 1/5, then the server's immediate snapshot of the still-active
(pending, progress 0) job, so two successive exposed progress values of
an active job decrease from 1/5 to 0. -/
theorem c3_progress_regression_counterexample :
    (hookTrace [.tick, .sse (snapshot initJob)]).map JobProgress.progress = [0, 1/5, 0]
  ∧ isTerminal (snapshot initJob).status = false
  ∧ ¬ ((1 : ℚ)/5 ≤ 0) :=
  ⟨rfl, rfl, by norm_num⟩

/-- C9 (corrected): with no SSE event, the fallback interval fires
exactly once: the first tick stores FALLBACK_STEPS[0] = (classifying,
"Classifying images", 0.2), the status change re-runs the effect whose
guard requires a still-pending status, and the interval is cleared;
every further tick is a no-op, so the displayed status never passes
classifying (in particular it never reaches scripting, voiceover,
composing, completed, and never shows backgrounds or exporting)
without a server event. -/
theorem c9_fallback_single_step (n : ℕ) :
    hookRun (List.replicate (n + 1) .tick) = tickedHook
  ∧ tickedHook.progress = ⟨.classifying, "Classifying images", 1/5⟩
  ∧ ((hookRun (List.replicate n .tick)).progress.status = .pending
      ∨ (hookRun (List.replicate n .tick)).progress.status = .classifying) := by
  refine ⟨hookRun_ticks n, rfl, ?_⟩
  cases n with
  | zero => exact Or.inl rfl
  | succ m =>
    refine Or.inr ?_
    rw [hookRun_ticks m]
    rfl

/-- C9 counterexample: the second and fifth ticks do not advance the
fabricated sequence — after two ticks the status is still classifying
(not scripting as the claimed 0.4 step would require), and after five
ticks it is still classifying, never completed. -/
theorem c9_second_tick_counterexample :
    (hookRun [.tick, .tick]).progress.status = .classifying
  ∧ (hookRun [.tick, .tick, .tick, .tick, .tick]).progress.status = .classifying
  ∧ JobStatus.classifying ≠ .scripting
  ∧ JobStatus.classifying ≠ .completed :=
  ⟨rfl, rfl, by decide, by decide⟩

/-- The forwarded part of the stream is drawn in order from the
published messages. -/
theorem takeUntilTerminal_sublist (l : List JobProgress) :
    List.Sublist (takeUntilTerminal l) l := by
  induction l with
  | nil => exact List.Sublist.refl []
  | cons e es ih =>
    rw [takeUntilTerminal]
    split
    · exact List.Sublist.cons₂ e (List.nil_sublist es)
    · exact List.Sublist.cons₂ e ih

/-- C4 (confirmed): every subscriber first receives the current
snapshot of the job (status, step, progress), sent immediately on
subscribing, and the later events it receives are exactly messages
published on the job's channel afterwards, in order. -/
theorem c4_snapshot_first_event (j : Job) (published : List JobProgress) :
    (streamEvents j published).head? = some (snapshot j)
  ∧ List.Sublist ((streamEvents j published).tail) published :=
  ⟨rfl, takeUntilTerminal_sublist published⟩

/-- C5 (corrected): every event the stream emits serializes with
exactly the keys status, step, progress, and its progress value lies
in [0, 1] whenever the job and the published messages are well formed.
(The claimed payload key job_id is absent — see the counterexample:
the job id lives in the channel key, not in the payload.) -/
theorem c5_event_shape (j : Job) (published : List JobProgress)
    (h0 : 0 ≤ j.progress) (h1 : j.progress ≤ 1)
    (hp : ∀ e ∈ published, 0 ≤ e.progress ∧ e.progress ≤ 1) :
    (∀ e ∈ streamEvents j published,
        jsonKeys (progressPayload e) = ["status", "step", "progress"])
  ∧ (∀ e ∈ streamEvents j published, 0 ≤ e.progress ∧ e.progress ≤ 1) := by
  constructor
  · intro e _
    rfl
  · intro e he
    rw [streamEvents, List.mem_cons] at he
    rcases he with he | he
    · subst he
      exact ⟨h0, h1⟩
    · exact hp e ((takeUntilTerminal_sublist published).subset he)

/-- C5 witness: the snapshot event of a fresh job has exactly the
three payload keys. -/
theorem c5_event_shape_witness :
    jsonKeys (progressPayload (snapshot initJob)) = ["status", "step", "progress"] :=
  (c5_event_shape initJob [] (by norm_num [initJob]) (by norm_num [initJob])
      (fun e he => absurd he (List.not_mem_nil e))).1
    (snapshot initJob) (List.mem_singleton_self (snapshot initJob))

/-- C5 counterexample: the payload constructed by the stream has keys
status, step, progress only — not the claimed shape with job_id. -/
theorem c5_payload_shape_counterexample :
    jsonKeys (progressPayload (snapshot initJob)) = ["status", "step", "progress"]
  ∧ jsonKeys (progressPayload (snapshot initJob)) ≠ specProgressEventKeys
  ∧ "job_id" ∉ jsonKeys (progressPayload (snapshot initJob)) :=
  ⟨rfl, by decide, by decide⟩

/-- Applying a preset keeps the voice inside the voice list. -/
theorem applyPreset_voice_mem (f : FormState) (s : PresetSettings)
    (h : f.voice ∈ voices) : (applyPreset f s).voice ∈ voices := by
  show (if s.voice ≠ "" ∧ s.voice ∈ voices then s.voice else f.voice) ∈ voices
  split
  · next hc => exact hc.2
  · exact h

/-- Applying a preset keeps the resolution inside the resolution list. -/
theorem applyPreset_resolution_mem (f : FormState) (s : PresetSettings)
    (h : f.resolution ∈ resolutions) : (applyPreset f s).resolution ∈ resolutions := by
  show (if s.resolution ≠ "" ∧ s.resolution ∈ resolutions then s.resolution
    else f.resolution) ∈ resolutions
  split
  · next hc => exact hc.2
  · exact h

/-- Applying a preset keeps the fps inside the fps list. -/
theorem applyPreset_fps_mem (f : FormState) (s : PresetSettings)
    (h : f.fps ∈ fpsOptions) : (applyPreset f s).fps ∈ fpsOptions := by
  show (if s.fps ≠ 0 ∧ s.fps ∈ fpsOptions then s.fps else f.fps) ∈ fpsOptions
  split
  · next hc => exact hc.2
  · exact h

/-- An out-of-set preset voice leaves the form's voice unchanged. -/
theorem applyPreset_voice_not_mem (f : FormState) (s : PresetSettings)
    (h : s.voice ∉ voices) : (applyPreset f s).voice = f.voice := by
  show (if s.voice ≠ "" ∧ s.voice ∈ voices then s.voice else f.voice) = f.voice
  rw [if_neg (fun hc => h hc.2)]

/-- An out-of-set preset resolution leaves the form's resolution
unchanged. -/
theorem applyPreset_resolution_not_mem (f : FormState) (s : PresetSettings)
    (h : s.resolution ∉ resolutions) :
    (applyPreset f s).resolution = f.resolution := by
  show (if s.resolution ≠ "" ∧ s.resolution ∈ resolutions then s.resolution
    else f.resolution) = f.resolution
  rw [if_neg (fun hc => h hc.2)]

/-- An out-of-set preset fps leaves the form's fps unchanged. -/
theorem applyPreset_fps_not_mem (f : FormState) (s : PresetSettings)
    (h : s.fps ∉ fpsOptions) : (applyPreset f s).fps = f.fps := by
  show (if s.fps ≠ 0 ∧ s.fps ∈ fpsOptions then s.fps else f.fps) = f.fps
  rw [if_neg (fun hc => h hc.2)]

/-- Every form interaction preserves membership of voice, resolution
and fps in their option lists. -/
theorem formStep_mem (f : FormState) (e : FormEvent)
    (hv : f.voice ∈ voices) (hr : f.resolution ∈ resolutions)
    (hf : f.fps ∈ fpsOptions) :
    (formStep f e).voice ∈ voices ∧ (formStep f e).resolution ∈ resolutions
      ∧ (formStep f e).fps ∈ fpsOptions := by
  cases e with
  | selectVoice i =>
    simp only [formStep]
    cases hvi : voices.get? i with
    | none => exact ⟨hv, hr, hf⟩
    | some v => exact ⟨List.get?_mem hvi, hr, hf⟩
  | selectResolution i =>
    simp only [formStep]
    cases hri : resolutions.get? i with
    | none => exact ⟨hv, hr, hf⟩
    | some v => exact ⟨hv, List.get?_mem hri, hf⟩
  | selectFps i =>
    simp only [formStep]
    cases hfi : fpsOptions.get? i with
    | none => exact ⟨hv, hr, hf⟩
    | some v => exact ⟨hv, hr, List.get?_mem hfi⟩
  | toggleBackgrounds b => exact ⟨hv, hr, hf⟩
  | chooseOutputMode m => exact ⟨hv, hr, hf⟩
  | loadPreset s =>
    exact ⟨applyPreset_voice_mem f s hv, applyPreset_resolution_mem f s hr,
      applyPreset_fps_mem f s hf⟩

/-- Folding interactions preserves the membership invariant. -/
theorem foldl_formStep_mem (es : List FormEvent) (f : FormState)
    (hv : f.voice ∈ voices) (hr : f.resolution ∈ resolutions)
    (hf : f.fps ∈ fpsOptions) :
    (es.foldl formStep f).voice ∈ voices
  ∧ (es.foldl formStep f).resolution ∈ resolutions
  ∧ (es.foldl formStep f).fps ∈ fpsOptions := by
  induction es generalizing f with
  | nil => exact ⟨hv, hr, hf⟩
  | cons e es ih =>
    obtain ⟨hv', hr', hf'⟩ := formStep_mem f e hv hr hf
    exact ih (formStep f e) hv' hr' hf'

/-- Every output mode is one of the three allowed values. -/
theorem outputMode_cases (m : OutputMode) :
    m = .video ∨ m = .presentation ∨ m = .both := by
  cases m
  · exact Or.inl rfl
  · exact Or.inr (Or.inl rfl)
  · exact Or.inr (Or.inr rfl)

/-- C6 (confirmed): along any sequence of form interactions, the
submitted settings keep voice, resolution and fps inside the six
voices, three resolutions and fps set 24/30/60, output_mode is one of
video / presentation / both, and applying a preset whose voice,
resolution or fps is outside its set leaves that setting unchanged
(generate_backgrounds is a boolean by construction). -/
theorem c6_settings_fixed_sets :
    (∀ es : List FormEvent,
        (submittedSettings (runForm es)).voice ∈ voices
      ∧ (submittedSettings (runForm es)).resolution ∈ resolutions
      ∧ (submittedSettings (runForm es)).fps ∈ fpsOptions
      ∧ ((submittedSettings (runForm es)).output_mode = .video
          ∨ (submittedSettings (runForm es)).output_mode = .presentation
          ∨ (submittedSettings (runForm es)).output_mode = .both))
  ∧ (∀ (f : FormState) (s : PresetSettings),
        (s.voice ∉ voices → (applyPreset f s).voice = f.voice)
      ∧ (s.resolution ∉ resolutions → (applyPreset f s).resolution = f.resolution)
      ∧ (s.fps ∉ fpsOptions → (applyPreset f s).fps = f.fps)) := by
  constructor
  · intro es
    obtain ⟨hv, hr, hf⟩ :=
      foldl_formStep_mem es initialForm (by decide) (by decide) (by decide)
    exact ⟨hv, hr, hf, outputMode_cases (runForm es).outputMode⟩
  · intro f s
    exact ⟨applyPreset_voice_not_mem f s, applyPreset_resolution_not_mem f s,
      applyPreset_fps_not_mem f s⟩

/-- C6 witness: loading a preset with out-of-set voice, resolution and
fps changes none of them. -/
theorem c6_settings_fixed_sets_witness :
    (applyPreset initialForm ⟨"robotic", "640x480", 25, false⟩).voice
      = initialForm.voice :=
  (c6_settings_fixed_sets.2 initialForm ⟨"robotic", "640x480", 25, false⟩).1
    (by decide)

/-- When every scene's classification, script and voice calls succeed
after retries, the whole plan is produced. -/
theorem planScenes_complete (gb : Bool) (scenes : List SceneCalls)
    (h : ∀ c ∈ scenes, (retryCall c.classifyAttempts).isSome = true
      ∧ (retryCall c.scriptAttempts).isSome = true
      ∧ (retryCall c.voiceAttempts).isSome = true) :
    (planScenes gb scenes).isSome = true := by
  induction scenes with
  | nil => rfl
  | cons c cs ih =>
    obtain ⟨h1, h2, h3⟩ := h c (List.mem_cons_self c cs)
    have hc : (planScene gb c).isSome = true := by
      unfold planScene
      obtain ⟨t, ht⟩ := Option.isSome_iff_exists.1 h1
      obtain ⟨sc, hsc⟩ := Option.isSome_iff_exists.1 h2
      obtain ⟨d, hd⟩ := Option.isSome_iff_exists.1 h3
      rw [ht, hsc, hd]
      rfl
    rw [planScenes]
    obtain ⟨p, hp⟩ := Option.isSome_iff_exists.1 hc
    obtain ⟨ps, hps⟩ :=
      Option.isSome_iff_exists.1 (ih (fun c' hc' => h c' (List.mem_cons_of_mem c hc')))
    rw [hp, hps]
    rfl

/-- C7 (confirmed): background generation is best-effort — when every
scene's classification, script and voice calls succeed after retries,
the job completes whether or not any background call succeeds; a scene
whose background generation fails on all retry attempts degrades to
the fallback visual; and a failed job always has some scene whose
classification, script or voice (never merely background) step failed. -/
theorem c7_backgrounds_best_effort :
    (∀ (gb : Bool) (scenes : List SceneCalls),
        (∀ c ∈ scenes, (retryCall c.classifyAttempts).isSome = true
          ∧ (retryCall c.scriptAttempts).isSome = true
          ∧ (retryCall c.voiceAttempts).isSome = true) →
        outcomeStatus (runPipeline gb scenes) = .completed)
  ∧ (∀ c : SceneCalls,
        (retryCall c.classifyAttempts).isSome = true →
        (retryCall c.scriptAttempts).isSome = true →
        (retryCall c.voiceAttempts).isSome = true →
        retryCall c.bgAttempts = none →
        (planScene true c).map PlannedScene.visual = some .fallback)
  ∧ (∀ (gb : Bool) (scenes : List SceneCalls),
        runPipeline gb scenes = .failedJob →
        ∃ c ∈ scenes, ¬ ((retryCall c.classifyAttempts).isSome = true
          ∧ (retryCall c.scriptAttempts).isSome = true
          ∧ (retryCall c.voiceAttempts).isSome = true)) := by
  refine ⟨?_, ?_, ?_⟩
  · intro gb scenes h
    obtain ⟨ps, hps⟩ := Option.isSome_iff_exists.1 (planScenes_complete gb scenes h)
    unfold runPipeline
    rw [hps]
    rfl
  · intro c h1 h2 h3 hbg
    unfold planScene
    obtain ⟨t, ht⟩ := Option.isSome_iff_exists.1 h1
    obtain ⟨sc, hsc⟩ := Option.isSome_iff_exists.1 h2
    obtain ⟨d, hd⟩ := Option.isSome_iff_exists.1 h3
    rw [ht, hsc, hd]
    simp [hbg]
  · intro gb scenes hfail
    by_contra hne
    push_neg at hne
    obtain ⟨ps, hps⟩ := Option.isSome_iff_exists.1 (planScenes_complete gb scenes hne)
    unfold runPipeline at hfail
    rw [hps] at hfail
    exact JobOutcome.noConfusion hfail

/-- C7 witness: a single scene whose background call fails on all
three attempts still yields a completed job, with the scene on the
fallback visual. -/
theorem c7_backgrounds_best_effort_witness :
    outcomeStatus (runPipeline true
        [⟨[some .photo], [some "A chart walkthrough"], [some 2], [none, none, none]⟩])
      = .completed
  ∧ (planScene true
        ⟨[some .photo], [some "A chart walkthrough"], [some 2], [none, none, none]⟩).map
      PlannedScene.visual = some .fallback :=
  ⟨c7_backgrounds_best_effort.1 true
      [⟨[some .photo], [some "A chart walkthrough"], [some 2], [none, none, none]⟩]
      (by
        intro c hc
        rw [List.mem_singleton] at hc
        subst hc
        exact ⟨rfl, rfl, rfl⟩),
   c7_backgrounds_best_effort.2.1
      ⟨[some .photo], [some "A chart walkthrough"], [some 2], [none, none, none]⟩
      rfl rfl rfl rfl⟩

/-- C8 (confirmed): the encoder tries the GPU first exactly when
hardware support is indicated, falls back to the CPU software encoder
exactly once on a GPU failure, raises a fatal error only when the CPU
fallback itself fails, and with no GPU support completes directly on
the CPU encoder with the software profile recorded. -/
theorem c8_encoder_gpu_cpu_fallback (env : EncoderEnv) :
    (env.gpuSupported = true → ((encode env).2.head? = some .hardware))
  ∧ ((encode env).1 = none → env.cpuRunOk = false ∧ EncProfile.software ∈ (encode env).2)
  ∧ (encode env).2.count .software ≤ 1
  ∧ (env.gpuSupported = true → env.gpuRunOk = false →
      (encode env).2 = [.hardware, .software])
  ∧ (env.gpuSupported = false → env.cpuRunOk = true →
      (encode env).1 = some ⟨.software⟩) := by
  rcases env with ⟨gs, go, co⟩
  cases gs <;> cases go <;> cases co <;> decide

/-- C8 witness: with no GPU support and a working CPU encoder, the
job's output descriptor records the software profile. -/
theorem c8_encoder_gpu_cpu_fallback_witness :
    (encode ⟨false, false, true⟩).1 = some ⟨.software⟩ :=
  (c8_encoder_gpu_cpu_fallback ⟨false, false, true⟩).2.2.2.2 rfl rfl

/-- A 401 response is never in the 2xx range. -/
theorem respOk_401 (r : HttpResponse) (h : r.status = 401) : respOk r = false := by
  unfold respOk
  rw [h]
  decide

/-- C10 (corrected): apiFetch's response handling resolves exactly when
the status is 2xx and the body is empty or parses as JSON; every
non-2xx response throws an ApiError, a 401 in a browser context first
clears the stored token, and a 2xx response with an empty body
resolves with the empty object.  (The claim's plain iff — resolves iff
2xx — fails on a 2xx response whose body is not valid JSON, see the
counterexample.) -/
theorem c10_apifetch_resolution (browser : Bool) (r : HttpResponse) (token : Option String) :
    ((handleResponse browser r token).1.isResolved = true
      ↔ respOk r = true ∧ (r.body = "" ∨ (parseJson r.body).isSome = true))
  ∧ (r.status = 401 → browser = true →
      (handleResponse browser r token).2 = none
      ∧ (handleResponse browser r token).1.isResolved = false)
  ∧ (respOk r = true → r.body = "" →
      (handleResponse browser r token).1 = .ok (.obj []))
  ∧ (respOk r = false → ∃ e, (handleResponse browser r token).1 = .apiErr e) := by
  unfold handleResponse
  by_cases h401 : r.status = 401 ∧ browser = true
  · rw [if_pos h401]
    have hok : respOk r = false := respOk_401 r h401.1
    refine ⟨?_, ?_, ?_, ?_⟩
    · constructor
      · intro hres
        exact absurd hres (by simp [FetchOutcome.isResolved])
      · intro hres
        rw [hok] at hres
        exact absurd hres.1 (by simp)
    · intro _ _
      exact ⟨rfl, rfl⟩
    · intro hok2 _
      rw [hok] at hok2
      exact absurd hok2 (by simp)
    · intro _
      exact ⟨_, rfl⟩
  · rw [if_neg h401]
    by_cases hok : respOk r = false
    · rw [if_pos hok]
      refine ⟨?_, ?_, ?_, ?_⟩
      · constructor
        · intro hres
          exact absurd hres (by simp [FetchOutcome.isResolved])
        · intro hres
          rw [hok] at hres
          exact absurd hres.1 (by simp)
      · intro h1 h2
        exact absurd ⟨h1, h2⟩ h401
      · intro hok2 _
        rw [hok] at hok2
        exact absurd hok2 (by simp)
      · intro _
        exact ⟨_, rfl⟩
    · rw [if_neg hok]
      have hok' : respOk r = true := by
        cases hr : respOk r
        · exact absurd hr hok
        · rfl
      by_cases hb : r.body = ""
      · rw [if_pos hb]
        refine ⟨?_, ?_, ?_, ?_⟩
        · constructor
          · intro _
            exact ⟨hok', Or.inl hb⟩
          · intro _
            rfl
        · intro h1 h2
          exact absurd ⟨h1, h2⟩ h401
        · intro _ _
          rfl
        · intro hf
          exact absurd hf hok
      · rw [if_neg hb]
        cases hp : parseJson r.body with
        | some v =>
          refine ⟨?_, ?_, ?_, ?_⟩
          · constructor
            · intro _
              exact ⟨hok', Or.inr rfl⟩
            · intro _
              rfl
          · intro h1 h2
            exact absurd ⟨h1, h2⟩ h401
          · intro _ hb2
            exact absurd hb2 hb
          · intro hf
            exact absurd hf hok
        | none =>
          refine ⟨?_, ?_, ?_, ?_⟩
          · constructor
            · intro hres
              exact absurd hres (by simp [FetchOutcome.isResolved])
            · intro hres
              rcases hres.2 with hb2 | hps
              · exact absurd hb2 hb
              · exact absurd hps (by simp)
          · intro h1 h2
            exact absurd ⟨h1, h2⟩ h401
          · intro _ hb2
            exact absurd hb2 hb
          · intro hf
            exact absurd hf hok

/-- C10 witness: a 401 response in a browser context clears the stored
token and rejects, and a 204-style empty 2xx body resolves with the
empty object. -/
theorem c10_apifetch_resolution_witness :
    ((handleResponse true ⟨401, "Unauthorized", ""⟩ (some "tok")).2 = none
      ∧ (handleResponse true ⟨401, "Unauthorized", ""⟩ (some "tok")).1.isResolved = false)
  ∧ (handleResponse false ⟨204, "No Content", ""⟩ (some "tok")).1 = .ok (.obj []) :=
  ⟨(c10_apifetch_resolution true ⟨401, "Unauthorized", ""⟩ (some "tok")).2.1 rfl rfl,
   (c10_apifetch_resolution false ⟨204, "No Content", ""⟩ (some "tok")).2.2.1 rfl rfl⟩

/-- C10 counterexample: a 200 response whose body "hello" is not JSON
does not resolve, so resolution is not equivalent to the status being
2xx. -/
theorem c10_2xx_reject_counterexample :
    respOk ⟨200, "OK", "hello"⟩ = true
  ∧ (handleResponse true ⟨200, "OK", "hello"⟩ (some "tok")).1.isResolved = false :=
  ⟨rfl, rfl⟩

end PdfToVideo
